import Mathlib

/-!
Shallow embedding of the DiZX qudit ZX-calculus rewriting library
(files `dizx/graph/phase.py`, `dizx/graph/edge.py`, `dizx/graph/graph_s.py`,
`dizx/basicrules.py`, `dizx/clifford_simplifier.py`), together with proofs
that settle the specification claims about it.

Conventions used throughout:
* Python `int` is modelled by `Int` (arbitrary precision, possibly negative).
* Python's `%` is floor-style and matches `Int.fmod`; taking `x % 0` raises
  `ZeroDivisionError`, which the embedding surfaces through `PyErr`.
* Fallible code returns `Except PyErr α`; mutation is explicit state passing.
* Python dicts are insertion-ordered association lists `List (Nat × α)` with
  unique keys; Python sets of DAG nodes are duplicate-free `List Nat` used
  with membership-based operations only.
-/

namespace DiZX

/-- Python exception kinds that the embedded code can raise.
`recursionErr` stands for exhaustion of the fuel that bounds the embedding of
Python's unbounded recursion / `while True:` loops. -/
inductive PyErr where
  | valueErr
  | typeErr
  | zeroDivErr
  | keyErr
  | attrErr
  | recursionErr
  deriving DecidableEq, Repr

/-- Python's `a % b` for `b ≠ 0` (floor-convention remainder, sign of `b`). -/
def pymod (a b : Int) : Int := Int.fmod a b

/-- Python's `a % b` including the `ZeroDivisionError` raised when `b = 0`. -/
def pymodE (a b : Int) : Except PyErr Int :=
  if b = 0 then .error .zeroDivErr else .ok (Int.fmod a b)

/-- Python's `pow(x, -1, m)`: the modular inverse of `x` modulo `m`, in
`[0, m)` for `m > 0`.  Raises `ValueError` when `m = 0` or when `x` is not
invertible modulo `m` (and for simplicity also for `m < 0`, which the library
never uses). -/
def pypowInv (x m : Int) : Except PyErr Int :=
  if m ≤ 0 then .error .valueErr
  else
    match (List.range m.toNat).find? (fun k => Int.fmod (x * (k : Int)) m == 1) with
    | some k => .ok (k : Int)
    | none => .error .valueErr

/-! ### Insertion-ordered dictionaries (Python `dict`) -/

/-- Lookup in an insertion-ordered association list (`d[k]` / `d.get(k)`). -/
def alookup {α : Type} : List (Nat × α) → Nat → Option α
  | [], _ => none
  | (k1, v1) :: t, k => if k1 = k then some v1 else alookup t k

/-- Lookup raising `KeyError` when the key is absent (`d[k]`). -/
def alookupE {α : Type} (l : List (Nat × α)) (k : Nat) : Except PyErr α :=
  match alookup l k with
  | some v => .ok v
  | none => .error .keyErr

/-- Assignment `d[k] = v`: overwrite in place if the key exists (keeping its
position, as Python dicts do), otherwise append at the end. -/
def aset {α : Type} : List (Nat × α) → Nat → α → List (Nat × α)
  | [], k, v => [(k, v)]
  | (k1, v1) :: t, k, v => if k1 = k then (k, v) :: t else (k1, v1) :: aset t k v

/-- Deletion `del d[k]`, raising `KeyError` when the key is absent. -/
def adel {α : Type} : List (Nat × α) → Nat → Except PyErr (List (Nat × α))
  | [], _ => .error .keyErr
  | (k1, v1) :: t, k =>
      if k1 = k then .ok t
      else (adel t k).map (fun r => (k1, v1) :: r)

/-- Deletion wrapped in `try: del d[k] except: pass`: remove the key if
present, otherwise leave the dictionary unchanged. -/
def arem {α : Type} : List (Nat × α) → Nat → List (Nat × α)
  | [], _ => []
  | (k1, v1) :: t, k => if k1 = k then t else (k1, v1) :: arem t k

/-- Largest key of the dictionary, or `d` when it is empty
(`max(keys, default=d)`). -/
def maxKeyD {α : Type} (l : List (Nat × α)) (d : Nat) : Nat :=
  (l.map Prod.fst).foldl max d

/-! ### `CliffordPhase` (dizx/graph/phase.py)

The Python constructor stores `_x` and `_y` exactly as given — it performs no
reduction modulo `dim`. -/

/-- The state of a `CliffordPhase` object: `dim`, `_x` and `_y`. -/
structure CliffordPhase where
  dim : Int
  x : Int
  y : Int
  deriving DecidableEq, Repr

/-- Property `x` of `CliffordPhase` (`return self._x`). -/
def CliffordPhase.xProp (p : CliffordPhase) : Int := p.x

/-- Property `y` of `CliffordPhase`.  The source reads `return self._x`
(phase.py line 79), not `self._y`. -/
def CliffordPhase.yProp (p : CliffordPhase) : Int := p.x

/-- `CliffordPhase.is_pauli`: `return self.y == 0` (through the `y`
property). -/
def CliffordPhase.is_pauli (p : CliffordPhase) : Bool := p.yProp == 0

/-- `CliffordPhase.is_pure_clifford`: `return self.x == 0`. -/
def CliffordPhase.is_pure_clifford (p : CliffordPhase) : Bool := p.xProp == 0

/-- `CliffordPhase.is_zero`: `return self.x == 0 and self.y == 0` (through
the properties). -/
def CliffordPhase.is_zero (p : CliffordPhase) : Bool :=
  p.xProp == 0 && p.yProp == 0

/-- `CliffordPhase.adjoint`: `CliffordPhase(self.dim, -self.x, -self.y)`
(through the properties). -/
def CliffordPhase.adjoint (p : CliffordPhase) : CliffordPhase :=
  ⟨p.dim, -p.xProp, -p.yProp⟩

/-- `CliffordPhase.__add__`: raises `ValueError` on unequal dimensions and
otherwise builds `CliffordPhase(self.dim, self.x + other.x, self.y + other.y)`
— reading through the properties and with no reduction modulo `dim`. -/
def CliffordPhase.add (p q : CliffordPhase) : Except PyErr CliffordPhase :=
  if p.dim ≠ q.dim then .error .valueErr
  else .ok ⟨p.dim, p.xProp + q.xProp, p.yProp + q.yProp⟩

/-- `CliffordPhase.__sub__`: like `__add__` with subtraction. -/
def CliffordPhase.sub (p q : CliffordPhase) : Except PyErr CliffordPhase :=
  if p.dim ≠ q.dim then .error .valueErr
  else .ok ⟨p.dim, p.xProp - q.xProp, p.yProp - q.yProp⟩

/-! ### `Edge` (dizx/graph/edge.py) -/

/-- The state of an `Edge` object after construction: `dim`, `_had` and
`_simple` (the latter two already reduced modulo `dim` by `__init__`). -/
structure Edge where
  dim : Int
  had : Int
  simple : Int
  deriving DecidableEq, Repr

/-- `Edge.SimpleEdge` class constant. -/
def Edge.SimpleEdge : Int := 1

/-- `Edge.HadEdge` class constant. -/
def Edge.HadEdge : Int := 2

/-- `Edge.__init__(dim, had=0, simple=0)`: stores `had % dim` and
`simple % dim`, which raises `ZeroDivisionError` when `dim = 0`. -/
def Edge.init (dim had simple : Int) : Except PyErr Edge :=
  if dim = 0 then .error .zeroDivErr
  else .ok ⟨dim, Int.fmod had dim, Int.fmod simple dim⟩

/-- `Edge.is_edge_present`: `self.had != 0 or self.simple != 0`. -/
def Edge.is_edge_present (e : Edge) : Bool := e.had != 0 || e.simple != 0

/-- `Edge.is_had_edge`: present and `simple == 0`. -/
def Edge.is_had_edge (e : Edge) : Bool := e.is_edge_present && e.simple == 0

/-- `Edge.is_simple_edge`: present and `had == 0`. -/
def Edge.is_simple_edge (e : Edge) : Bool := e.is_edge_present && e.had == 0

/-- `Edge.is_reduced`: `self.had == 0 or self.simple == 0`. -/
def Edge.is_reduced (e : Edge) : Bool := e.had == 0 || e.simple == 0

/-- `Edge.__bool__` (used by `if old:`): edge presence. -/
def Edge.toBool (e : Edge) : Bool := e.is_edge_present

/-- `Edge.type`: `Edge.SimpleEdge` or `Edge.HadEdge`; raises `ValueError`
when the edge is not reduced. -/
def Edge.type (e : Edge) : Except PyErr Int :=
  if ¬ e.is_reduced then .error .valueErr
  else .ok (if e.had == 0 then Edge.SimpleEdge else Edge.HadEdge)

/-! ### `VertexType` (dizx/utils.py) and `Scalar` (dizx/graph/scalar.py) -/

/-- `VertexType.BOUNDARY = 0`. -/
def VertexType.BOUNDARY : Nat := 0

/-- `VertexType.Z = 1`. -/
def VertexType.Z : Nat := 1

/-- `VertexType.X = 2`. -/
def VertexType.X : Nat := 2

/-- The state of a `Scalar` object.  The complex `floatfactor` is modelled by
its real and imaginary parts as exact rationals; no claim touches scalar
arithmetic, the field is only carried so that "the scalar is unchanged"
statements are about the full graph state. -/
structure Scalar where
  dim : Int
  power_dim : Int
  phase : Rat
  floatfactorRe : Rat
  floatfactorIm : Rat
  is_unknown : Bool
  is_zero : Bool
  deriving DecidableEq, Repr

/-- `Scalar(dim)`: `power_dim = 0`, `phase = Fraction(0)`, `floatfactor = 1.0`,
both flags false. -/
def Scalar.init (dim : Int) : Scalar := ⟨dim, 0, 0, 1, 0, false, false⟩

/-! ### `GraphS` (dizx/graph/graph_s.py)

The adjacency structure `self.graph : Dict[int, Dict[int, Edge]]` is the
insertion-ordered dictionary of dictionaries `graph`; `ty`, `phaseMap`,
`qindex` and `rindex` are the dictionaries `self.ty`, `self._phase`,
`self._qindex` and `self._rindex`. -/

/-- The state of a `GraphS` object. -/
structure GraphS where
  dim : Int
  graph : List (Nat × List (Nat × Edge))
  vindex : Nat
  nedges : Int
  ty : List (Nat × Nat)
  phaseMap : List (Nat × CliffordPhase)
  qindex : List (Nat × Int)
  maxq : Int
  rindex : List (Nat × Int)
  maxr : Int
  inputs : List Nat
  outputs : List Nat
  scalar : Scalar
  deriving DecidableEq, Repr

/-- `GraphS(dim)`: the empty graph. -/
def GraphS.init (dim : Int) : GraphS :=
  ⟨dim, [], 0, 0, [], [], [], -1, [], -1, [], [], Scalar.init dim⟩

/-- `GraphS.type(vertex)`: `self.ty[vertex]`, `KeyError` when absent. -/
def GraphS.type (g : GraphS) (v : Nat) : Except PyErr Nat :=
  alookupE g.ty v

/-- `GraphS.phase(vertex)`:
`self._phase.get(vertex, CliffordPhase(self.dim))`. -/
def GraphS.phase (g : GraphS) (v : Nat) : CliffordPhase :=
  (alookup g.phaseMap v).getD ⟨g.dim, 0, 0⟩

/-- `GraphS.set_phase(vertex, phase)`. -/
def GraphS.set_phase (g : GraphS) (v : Nat) (p : CliffordPhase) : GraphS :=
  {g with phaseMap := aset g.phaseMap v p}

/-- `GraphS.add_to_phase(vertex, phase)`: adds to the stored phase (default
`CliffordPhase(self.dim)`), using `CliffordPhase.__add__` (which may raise
`ValueError`). -/
def GraphS.add_to_phase (g : GraphS) (v : Nat) (p : CliffordPhase) :
    Except PyErr GraphS := do
  let newPhase ← (g.phase v).add p
  .ok (g.set_phase v newPhase)

/-- `GraphS.edge(s, t)`: the ordered pair `(s,t) if s < t else (t,s)`. -/
def GraphS.edge (s t : Nat) : Nat × Nat :=
  if s < t then (s, t) else (t, s)

/-- The edge record stored for the pair `(v, w)`, if any. -/
def GraphS.storedEdge (g : GraphS) (v w : Nat) : Option Edge :=
  (alookup g.graph v).bind (fun adj => alookup adj w)

/-- `GraphS.edge_object(e)`: `self.graph[v1][v2]`, falling back to
`Edge(0,0)` on `KeyError` — and `Edge.__init__` with `dim = 0` reduces the
components modulo `0`, raising `ZeroDivisionError`. -/
def GraphS.edge_object (g : GraphS) (e : Nat × Nat) : Except PyErr Edge :=
  match g.storedEdge e.1 e.2 with
  | some eo => .ok eo
  | none => Edge.init 0 0 0

/-- `GraphS.set_edge_object(e, t)`: `self.graph[v1][v2] = t` and symmetrically
(`KeyError` when either vertex has no adjacency dictionary). -/
def GraphS.set_edge_object (g : GraphS) (e : Nat × Nat) (t : Edge) :
    Except PyErr GraphS := do
  let adj1 ← alookupE g.graph e.1
  let g := {g with graph := aset g.graph e.1 (aset adj1 e.2 t)}
  let adj2 ← alookupE g.graph e.2
  .ok {g with graph := aset g.graph e.2 (aset adj2 e.1 t)}

/-- `GraphS.neighbors(vertex)`: `self.graph[vertex].keys()`. -/
def GraphS.neighbors (g : GraphS) (v : Nat) : Except PyErr (List Nat) := do
  let adj ← alookupE g.graph v
  .ok (adj.map Prod.fst)

/-- `GraphS.vertex_degree(vertex)`: `len(self.graph[vertex])`. -/
def GraphS.vertex_degree (g : GraphS) (v : Nat) : Except PyErr Nat := do
  let adj ← alookupE g.graph v
  .ok adj.length

/-- `GraphS.connected(v1, v2)`: `v2 in self.graph[v1]`. -/
def GraphS.connected (g : GraphS) (v1 v2 : Nat) : Except PyErr Bool := do
  let adj ← alookupE g.graph v1
  .ok (v2 ∈ adj.map Prod.fst)

/-- One iteration of `GraphS.remove_edges`: decrement `nedges`, delete
`graph[s][t]` and, when `s ≠ t`, delete `graph[t][s]`. -/
def GraphS.removeOneEdge (g : GraphS) (e : Nat × Nat) : Except PyErr GraphS := do
  let g := {g with nedges := g.nedges - 1}
  let adjs ← alookupE g.graph e.1
  let adjs2 ← adel adjs e.2
  let g := {g with graph := aset g.graph e.1 adjs2}
  if e.1 ≠ e.2 then do
    let adjt ← alookupE g.graph e.2
    let adjt2 ← adel adjt e.1
    .ok {g with graph := aset g.graph e.2 adjt2}
  else .ok g

/-- `GraphS.remove_edges(edges)`. -/
def GraphS.remove_edges (g : GraphS) (es : List (Nat × Nat)) :
    Except PyErr GraphS :=
  es.foldlM GraphS.removeOneEdge g

/-- `GraphS.remove_edge(edge)`. -/
def GraphS.remove_edge (g : GraphS) (e : Nat × Nat) : Except PyErr GraphS :=
  g.remove_edges [e]

/-- `GraphS.add_edge(e, eo)` (graph_s.py lines 116–200).

The embedding mirrors the source faithfully, including its defects:
* `old = self.edge_object(e)` raises `ZeroDivisionError` whenever the pair
  has no stored edge;
* the boundary branch calls the nonexistent method `eo.is_single()`
  (`AttributeError`);
* every branch that builds a replacement edge calls the `Edge` constructor
  without its required positional `dim` argument — `Edge(had=0, simple=1)`
  and similar — which raises `TypeError` before the assignment happens;
* the Z–X branch tests the nonexistent `old.is_hadamard_edge()`
  (`AttributeError`). -/
def GraphS.add_edge (g : GraphS) (e : Nat × Nat) (eo : Edge) :
    Except PyErr GraphS := do
  let v1 := e.1
  let v2 := e.2
  let t1 ← g.type v1
  let t2 ← g.type v2
  let old ← g.edge_object e
  if t1 = VertexType.BOUNDARY ∨ t2 = VertexType.BOUNDARY then
    if old.toBool then .error .valueErr
    else .error .attrErr
  else if t1 = t2 ∧ t1 = VertexType.Z then
    if eo.simple ≠ 0 ∨ old.simple ≠ 0 then do
      let h ← pymodE (old.had + eo.had) g.dim
      let _ ← g.add_to_phase v1 ⟨g.dim, 0, 2 * h⟩
      .error .typeErr
    else do
      let h ← pymodE (eo.had + old.had) g.dim
      if h = 0 then
        if old.toBool then g.remove_edge e else .ok g
      else .error .typeErr
  else if t1 = VertexType.X ∧ t2 = VertexType.X then
    if ¬ eo.is_reduced then .error .valueErr
    else if eo.is_had_edge then
      if old.toBool ∧ old.is_simple_edge then .error .valueErr
      else do
        let h ← pymodE (eo.had + old.had) g.dim
        if h = 0 then
          if old.toBool then g.remove_edge e else .ok g
        else .error .typeErr
    else
      if old.toBool ∧ old.is_had_edge then .error .valueErr
      else .error .typeErr
  else
    if ¬ eo.is_reduced then .error .valueErr
    else if eo.is_simple_edge then
      if old.toBool then .error .attrErr
      else do
        let s ← pymodE (eo.simple + old.simple) g.dim
        if s = 0 then
          if old.toBool then g.remove_edge e else .ok g
        else .error .typeErr
    else
      if old.toBool ∧ old.is_simple_edge then .error .valueErr
      else .error .typeErr

/-- One iteration of the edge-severing loop inside `GraphS.remove_vertices`:
`self.nedges -= 1; del self.graph[v][v1]; if v != v1: del self.graph[v1][v]`. -/
def GraphS.removeVertexEdgeStep (g : GraphS) (v v1 : Nat) :
    Except PyErr GraphS := do
  let g := {g with nedges := g.nedges - 1}
  let adjv ← alookupE g.graph v
  let adjv2 ← adel adjv v1
  let g := {g with graph := aset g.graph v adjv2}
  if v ≠ v1 then do
    let adj1 ← alookupE g.graph v1
    let adj12 ← adel adj1 v
    .ok {g with graph := aset g.graph v1 adj12}
  else .ok g

/-- The body of the `for v in vertices:` loop of `GraphS.remove_vertices`:
sever all edges incident to `v` (iterating over a snapshot of
`list(self.graph[v])`), delete the vertex from `graph`, `ty` and `_phase`,
filter it out of the input/output tuples, and drop its `_qindex`/`_rindex`
entries (each wrapped in `try/except: pass`; the `del self.phase_index[v]`
line also hits such a bare `except`, because `GraphS` never defines
`phase_index` — so it is a no-op). -/
def GraphS.removeOneVertex (g : GraphS) (v : Nat) : Except PyErr GraphS := do
  let adjv ← alookupE g.graph v
  let vs := adjv.map Prod.fst
  let g ← vs.foldlM (fun g v1 => g.removeVertexEdgeStep v v1) g
  let graph2 ← adel g.graph v
  let ty2 ← adel g.ty v
  let ph2 ← adel g.phaseMap v
  let g := {g with graph := graph2, ty := ty2, phaseMap := ph2}
  let g :=
    if v ∈ g.inputs then {g with inputs := g.inputs.filter (fun u => u ≠ v)}
    else g
  let g :=
    if v ∈ g.outputs then {g with outputs := g.outputs.filter (fun u => u ≠ v)}
    else g
  .ok {g with qindex := arem g.qindex v, rindex := arem g.rindex v}

/-- `GraphS.remove_vertices(vertices)`: run the per-vertex loop, then
`self._vindex = max(self.vertices(), default=0) + 1`. -/
def GraphS.remove_vertices (g : GraphS) (l : List Nat) : Except PyErr GraphS := do
  let g ← l.foldlM GraphS.removeOneVertex g
  .ok {g with vindex := maxKeyD g.graph 0 + 1}

/-- `GraphS.remove_vertex(vertex)`. -/
def GraphS.remove_vertex (g : GraphS) (v : Nat) : Except PyErr GraphS :=
  g.remove_vertices [v]

/-- The loop body of `GraphS.add_vertices`: for each fresh index, an empty
adjacency dictionary, type `BOUNDARY`, and phase `CliffordPhase(self.dim)`. -/
def GraphS.addVerticesLoop (g : GraphS) : Nat → Nat → GraphS
  | _, 0 => g
  | i, n + 1 =>
      GraphS.addVerticesLoop
        {g with graph := aset g.graph i [],
                ty := aset g.ty i VertexType.BOUNDARY,
                phaseMap := aset g.phaseMap i ⟨g.dim, 0, 0⟩}
        (i + 1) n

/-- `GraphS.add_vertices(amount)`: returns the updated graph together with
`range(self._vindex - amount, self._vindex)`. -/
def GraphS.add_vertices (g : GraphS) (amount : Nat) : GraphS × List Nat :=
  let g2 := GraphS.addVerticesLoop g g.vindex amount
  ({g2 with vindex := g.vindex + amount}, List.range' g.vindex amount)

/-- `GraphS.set_type(vertex, t)`. -/
def GraphS.set_type (g : GraphS) (v : Nat) (t : Nat) : GraphS :=
  {g with ty := aset g.ty v t}

/-- `GraphS.set_qubit(vertex, q)`: updates `_maxq` when exceeded. -/
def GraphS.set_qubit (g : GraphS) (v : Nat) (q : Int) : GraphS :=
  let g := if q > g.maxq then {g with maxq := q} else g
  {g with qindex := aset g.qindex v q}

/-- `GraphS.set_row(vertex, r)`: updates `_maxr` when exceeded. -/
def GraphS.set_row (g : GraphS) (v : Nat) (r : Int) : GraphS :=
  let g := if r > g.maxr then {g with maxr := r} else g
  {g with rindex := aset g.rindex v r}

/-- `BaseGraph.add_vertex(ty, qubit, row, phase)` (graph/base.py lines
268–285): `v = self.add_vertices(1)[0]`, set the type, default the phase to
`CliffordPhase(self.dim)` when `None`, set qubit and row, and store the phase
(a `CliffordPhase` object is always truthy, so `if phase:` always fires).
Returns the updated graph and the new vertex handle. -/
def GraphS.add_vertex (g : GraphS) (t : Nat) (qubit row : Int)
    (ph : Option CliffordPhase) : GraphS × Nat :=
  let (g1, vs) := g.add_vertices 1
  let v := vs.headD 0
  let g2 := g1.set_type v t
  let phase := ph.getD ⟨g.dim, 0, 0⟩
  let g3 := g2.set_qubit v qubit
  let g4 := g3.set_row v row
  let g5 := g4.set_phase v phase
  (g5, v)

/-! ### `check_z_elim` and `z_elim` (dizx/basicrules.py lines 114–166)

The boolean returned by `check_z_elim` is embedded with Python's operator
precedence: `A and B and C and D1 or D2 or D3 or D4` parses as
`(A ∧ B ∧ C ∧ D1) ∨ D2 ∨ D3 ∨ D4`, so the degree-2/zero-phase/Z-type guard
only covers the first edge-type case.  Short-circuit evaluation order is
preserved, so the `pow(edge2.simple, -1, g.dim)` call (which can raise
`ValueError`) runs only when its disjunct is reached and the edge types are
`(SimpleEdge, SimpleEdge)`. -/

/-- `check_z_elim(g, v)`. -/
def check_z_elim (g : GraphS) (v : Nat) : Except PyErr Bool := do
  let ns ← g.neighbors v
  if ns.length ≠ 2 then .ok false
  else do
    let vpair ←
      match ns with
      | [a, b] => Except.ok (a, b)
      | _ => Except.error PyErr.valueErr
    let v1 := vpair.1
    let v2 := vpair.2
    let edge1 ← g.edge_object (GraphS.edge v1 v)
    let edge2 ← g.edge_object (GraphS.edge v v2)
    let et1 ← edge1.type
    let et2 ← edge2.type
    let d ← g.vertex_degree v
    let c1 ←
      if d = 2 then
        if (g.phase v).is_zero then do
          let t ← g.type v
          Except.ok (t == VertexType.Z &&
            (et1 == Edge.HadEdge && et2 == Edge.SimpleEdge))
        else Except.ok false
      else Except.ok false
    if c1 then .ok true
    else if et1 == Edge.SimpleEdge && et2 == Edge.HadEdge then .ok true
    else do
      let c3 ←
        if et1 == Edge.HadEdge && et2 == Edge.HadEdge then do
          let m ← pymodE (edge1.had + edge2.had) g.dim
          Except.ok (m == 0)
        else Except.ok false
      if c3 then .ok true
      else if et1 == Edge.SimpleEdge && et2 == Edge.SimpleEdge then do
        let inv ← pypowInv edge2.simple g.dim
        let m ← pymodE (edge1.simple - inv) g.dim
        if m == 0 then do
          let t1 ← g.type v1
          if t1 == VertexType.X || t1 == VertexType.BOUNDARY then do
            let t2 ← g.type v2
            .ok (t2 == VertexType.X || t2 == VertexType.BOUNDARY)
          else .ok false
        else .ok false
      else .ok false

/-- `z_elim(g, v)`: returns `False` untouched when `check_z_elim` fails;
otherwise every rewiring branch evaluates `Edge.make(...)` — but the `Edge`
class of `dizx/graph/edge.py` (the one exported by the package and imported
by `basicrules.py`) has no attribute `make`, so reaching any of those
branches raises `AttributeError`; the final `else` branch returns `False`
without touching the graph. -/
def z_elim (g : GraphS) (v : Nat) : Except PyErr (Bool × GraphS) := do
  let chk ← check_z_elim g v
  if ¬ chk then .ok (false, g)
  else do
    let ns ← g.neighbors v
    let vpair ←
      match ns with
      | [a, b] => Except.ok (a, b)
      | _ => Except.error PyErr.valueErr
    let v1 := vpair.1
    let v2 := vpair.2
    let edge1 ← g.edge_object (GraphS.edge v1 v)
    let edge2 ← g.edge_object (GraphS.edge v v2)
    let et1 ← edge1.type
    let et2 ← edge2.type
    if et1 == Edge.HadEdge && et2 == Edge.SimpleEdge then
      .error .attrErr
    else if et1 == Edge.SimpleEdge && et2 == Edge.HadEdge then
      .error .attrErr
    else do
      let c3 ←
        if et1 == Edge.HadEdge && et2 == Edge.HadEdge then do
          let m ← pymodE (edge1.had + edge2.had) g.dim
          Except.ok (m == 0)
        else Except.ok false
      if c3 then .error .attrErr
      else do
        let c4 ←
          if et1 == Edge.SimpleEdge && et2 == Edge.SimpleEdge then do
            let inv ← pypowInv edge2.simple g.dim
            let m ← pymodE (edge1.simple - inv) g.dim
            if m == 0 then do
              let t1 ← g.type v1
              if t1 == VertexType.X || t1 == VertexType.BOUNDARY then do
                let t2 ← g.type v2
                Except.ok (t2 == VertexType.X || t2 == VertexType.BOUNDARY)
              else Except.ok false
            else Except.ok false
          else Except.ok false
        if c4 then .error .attrErr
        else .ok (false, g)

/-! ### Gates (dizx/circuit/gates.py)

Only the gate classes handled by the Clifford DAG simplifier are modelled.
A gate state carries the class name, `target`, the optional `control`
(present exactly for the `GateWithControl` subclasses `CZ`/`CX`/`SWAP`),
`repetitions`, the optional `phase` attribute (present exactly for the
`ZPhase` subclasses, here `S` and `Z`), and `index`. -/

/-- Gate class names. -/
inductive GateName where
  | S
  | Z
  | X
  | HAD
  | CZ
  | CX
  | SWAP
  deriving DecidableEq, Repr

/-- The mutable state of a `Gate` object. -/
structure PyGate where
  name : GateName
  target : Nat
  control : Option Nat
  repetitions : Int
  phase : Option CliffordPhase
  index : Nat
  deriving DecidableEq, Repr

/-- `S(target)`: phase `CliffordPhase(settings.dim, 0, 1)` with
`settings.dim = 3`, repetitions `1`. -/
def PyGate.mkS (target : Nat) : PyGate :=
  ⟨.S, target, none, 1, some ⟨3, 0, 1⟩, 0⟩

/-- `CZ(control, target)`: repetitions `1`, no phase attribute. -/
def PyGate.mkCZ (control target : Nat) : PyGate :=
  ⟨.CZ, target, some control, 1, none, 0⟩

/-- Tail of `Gate.merge`: add the `phase` attributes when both gates have
one (using `CliffordPhase.__add__`), then add the repetitions. -/
def PyGate.mergePhaseReps (self other : PyGate) : Except PyErr PyGate := do
  let self2 ←
    match self.phase, other.phase with
    | some p1, some p2 => do
        let p ← p1.add p2
        Except.ok {self with phase := some p}
    | _, _ => Except.ok self
  .ok {self2 with repetitions := self2.repetitions + other.repetitions}

/-- `Gate.merge(other)` (gates.py lines 234–247): `ValueError` on a name,
target or control mismatch, otherwise sum phases (when present) and
repetitions, mutating `self`. -/
def PyGate.merge (self other : PyGate) : Except PyErr PyGate :=
  if self.name ≠ other.name then .error .valueErr
  else if self.target ≠ other.target then .error .valueErr
  else
    match self.control, other.control with
    | some c1, some c2 =>
        if c1 ≠ c2 then .error .valueErr else self.mergePhaseReps other
    | _, _ => self.mergePhaseReps other

/-! ### The gate DAG (dizx/clifford_simplifier.py)

Python `DAG` objects form a mutable object graph with sharing, embedded here
as an arena: `DAGState.nodes` maps an integer node id to the node's state,
and a node's `parents`/`children`/`ancestors` hold node ids.  The `ancestors`
attribute is a Python `set`, modelled as a duplicate-free list used only
through membership-based operations; the unbounded recursions
(`refresh_ancestors` and the rewrite traversals) take explicit fuel and
raise `recursionErr` when it runs out. -/

/-- The state of one `DAG` object. -/
structure DAGNode where
  gate : Option PyGate
  parents : List Nat
  children : List Nat
  ancestors : List Nat
  deriving DecidableEq, Repr

/-- A fresh `DAG()` node with no gate payload. -/
def DAGNode.empty : DAGNode := ⟨none, [], [], []⟩

/-- The arena of `DAG` objects; node `0` is the root created by
`create_dag`. -/
structure DAGState where
  nodes : List (Nat × DAGNode)
  nextId : Nat
  deriving DecidableEq, Repr

/-- Dereference a node id. -/
def DAGState.get (st : DAGState) (i : Nat) : DAGNode :=
  (alookup st.nodes i).getD DAGNode.empty

/-- Overwrite a node's state. -/
def DAGState.set (st : DAGState) (i : Nat) (n : DAGNode) : DAGState :=
  {st with nodes := aset st.nodes i n}

/-- Allocate a `DAG(gate)` object. -/
def DAGState.newNode (st : DAGState) (m : Option PyGate) : DAGState × Nat :=
  ({st with nodes := st.nodes ++ [(st.nextId, ⟨m, [], [], []⟩)],
            nextId := st.nextId + 1},
   st.nextId)

/-- `set.add`: insert when absent. -/
def setInsert (s : List Nat) (x : Nat) : List Nat :=
  if x ∈ s then s else s ++ [x]

/-- `set.update`: union. -/
def setUnion (s t : List Nat) : List Nat := t.foldl setInsert s

/-- `set.issuperset`. -/
def isSupersetOf (s t : List Nat) : Bool := t.all (fun x => s.contains x)

/-- Python `list.remove(x)`: drop the first occurrence, `ValueError` when
absent. -/
def pyRemove (l : List Nat) (x : Nat) : Except PyErr (List Nat) :=
  if l.contains x then .ok (l.erase x) else .error .valueErr

/-- `DAG.add_child(child)`: append to `children` and `parents`, then
`child.ancestors.add(self); child.ancestors.update(self.ancestors)`.
Descendants of `child` are not updated, so their ancestor sets can go
stale. -/
def DAGState.addChild (st : DAGState) (s c : Nat) : DAGState :=
  let sn := st.get s
  let st := st.set s {sn with children := sn.children ++ [c]}
  let cn := st.get c
  let anc := setUnion (setInsert cn.ancestors s) (st.get s).ancestors
  st.set c {cn with parents := cn.parents ++ [s], ancestors := anc}

/-- Work items for the embedded recursive DAG traversals: visit one node, or
walk a list of children in order. -/
inductive WalkTask where
  | node (i : Nat)
  | kids (l : List Nat)
  deriving Repr

/-- `DAG.refresh_ancestors()`: recompute this node's ancestor set from its
parents, then recurse into all children. -/
def refreshAncestorsAux : Nat → DAGState → WalkTask → Except PyErr DAGState
  | 0, _, _ => .error .recursionErr
  | fuel + 1, st, .node i =>
      let n := st.get i
      let anc := n.parents.foldl
        (fun acc p => setUnion (setInsert acc p) (st.get p).ancestors) []
      let st := st.set i {n with ancestors := anc}
      refreshAncestorsAux fuel st (.kids (st.get i).children)
  | _ + 1, st, .kids [] => .ok st
  | fuel + 1, st, .kids (c :: rest) => do
      let st ← refreshAncestorsAux fuel st (.node c)
      refreshAncestorsAux fuel st (.kids rest)

/-- `DAG.remove_child(child)`: unlink the edge and refresh the child's (and
its descendants') ancestor sets; `ValueError` when `child` is not a child. -/
def DAGState.removeChild (fuel : Nat) (st : DAGState) (s c : Nat) :
    Except PyErr DAGState := do
  let sn := st.get s
  if sn.children.contains c then do
    let st := st.set s {sn with children := sn.children.erase c}
    let cn := st.get c
    let ps ← pyRemove cn.parents s
    let st := st.set c {cn with parents := ps}
    refreshAncestorsAux fuel st (.node c)
  else .error .valueErr

/-- `DAG.merge(other)` (clifford_simplifier.py lines 213–237): assumes
`other` is a child of `self`; re-homes `other`'s children onto `self`, and
when `other` has further parents, removes the parents of `self` that are
ancestors of a parent of `other` (via the ancestor-set superset test) and
re-parents `other`'s parents onto `self`. -/
def DAGState.dagMerge (fuel : Nat) (st : DAGState) (s o : Nat) :
    Except PyErr DAGState := do
  let sn := st.get s
  if sn.children.contains o then do
    let st := st.set s {sn with children := sn.children.erase o}
    let oc := (st.get o).children
    let st ← oc.foldlM (fun st child => do
        let cn := st.get child
        let ps ← pyRemove cn.parents o
        let st := st.set child {cn with parents := ps}
        Except.ok (st.addChild s child)) st
    let onode := st.get o
    let ps ← pyRemove onode.parents s
    let st := st.set o {onode with parents := ps}
    let st ←
      if (st.get o).parents ≠ [] then do
        let selfParents := (st.get s).parents
        let otherParents := (st.get o).parents
        let parentsToRemove := selfParents.filter (fun p =>
          otherParents.any (fun p2 =>
            isSupersetOf (st.get p2).ancestors (setInsert (st.get p).ancestors p)))
        let st ← parentsToRemove.foldlM
          (fun st p => DAGState.removeChild fuel st p s) st
        otherParents.foldlM (fun st p => do
            let pn := st.get p
            let cs ← pyRemove pn.children o
            let st := st.set p {pn with children := cs}
            if (st.get s).parents.contains p then Except.ok st
            else Except.ok (st.addChild p s)) st
      else Except.ok st
    let onode2 := st.get o
    Except.ok (st.set o {onode2 with children := [], parents := []})
  else .error .valueErr

/-! ### `CliffordSimplifier.create_dag` (clifford_simplifier.py 269–309) -/

/-- A `Circuit` as consumed by the simplifier: a qudit count and the ordered
gate list. -/
structure PyCircuit where
  qudits : Nat
  gates : List PyGate
  deriving Repr

/-- One iteration of the gate loop of `create_dag`: assign `gate.index`,
allocate the node, and link it below the latest gate(s) on its qudit(s),
with the ancestor-membership guards for two-qudit gates.  `latest_gate` is
the dictionary keyed by `range(qudits)` (`KeyError` on an out-of-range
target). -/
def createDagStep (acc : DAGState × List (Nat × Option Nat) × Nat)
    (gate : PyGate) :
    Except PyErr (DAGState × List (Nat × Option Nat) × Nat) := do
  let (st, latest, maxIdx) := acc
  let gate := {gate with index := maxIdx}
  let maxIdx := maxIdx + 1
  let (st, nid) := st.newNode (some gate)
  match gate.control with
  | some ctrl => do
      let parent1 ← alookupE latest gate.target
      let parent2 ← alookupE latest ctrl
      let st :=
        match parent1, parent2 with
        | some p1, some p2 =>
            if p1 = p2 then st.addChild p1 nid
            else if (st.get p1).ancestors.contains p2 then st.addChild p1 nid
            else if (st.get p2).ancestors.contains p1 then st.addChild p2 nid
            else (st.addChild p1 nid).addChild p2 nid
        | some p1, none => st.addChild p1 nid
        | none, some p2 => st.addChild p2 nid
        | none, none => st.addChild 0 nid
      let latest := aset (aset latest gate.target (some nid)) ctrl (some nid)
      .ok (st, latest, maxIdx)
  | none => do
      let p ← alookupE latest gate.target
      let st :=
        match p with
        | none => st.addChild 0 nid
        | some p1 => st.addChild p1 nid
      .ok (st, aset latest gate.target (some nid), maxIdx)

/-- `create_dag`: root node `0` with `node = None`, `latest_gate` initialised
to `None` on every qudit, `max_index` starting at `1` (set in
`CliffordSimplifier.__init__`).  Returns the DAG arena and the final
`max_index`. -/
def create_dag (c : PyCircuit) : Except PyErr (DAGState × Nat) := do
  let root : DAGState := ⟨[(0, DAGNode.empty)], 1⟩
  let latest := (List.range c.qudits).map (fun i => (i, (none : Option Nat)))
  let (st, _, maxIdx) ← c.gates.foldlM createDagStep (root, latest, 1)
  .ok (st, maxIdx)

/-! ### `CliffordSimplifier.combine_gates` (clifford_simplifier.py 408–433) -/

/-- The nested `try_merge(dag)` of `combine_gates`: when the node holds a
gate and has exactly one child whose gate has the same class name — and the
gate is single-qudit, or targets/controls agree, or it is a `CZ` acting on
the same qudit pair — merge the gates (`Gate.merge`) and splice out the
child (`DAG.merge`); otherwise recurse through the children in order. -/
def tryMergeAux : Nat → DAGState → WalkTask → Except PyErr (Bool × DAGState)
  | 0, _, _ => .error .recursionErr
  | fuel + 1, st, .node i => do
      let n := st.get i
      let fired ←
        match n.gate, n.children with
        | some gdag, [cid] =>
            match (st.get cid).gate with
            | some gchild =>
                if gchild.name = gdag.name then do
                  let cond ←
                    match gdag.control, gchild.control with
                    | none, _ => Except.ok true
                    | some dc, some cc =>
                        Except.ok
                          ((decide (gdag.target = gchild.target) &&
                            decide (dc = cc)) ||
                           (decide (gdag.name = GateName.CZ) &&
                            (decide (gdag.target = gchild.target) ||
                             decide (gdag.target = cc)) &&
                            (decide (dc = gchild.target) || decide (dc = cc))))
                    | some _, none => Except.error PyErr.attrErr
                  if cond then do
                    let merged ← gdag.merge gchild
                    let n2 := st.get i
                    let st := st.set i {n2 with gate := some merged}
                    let st ← DAGState.dagMerge fuel st i cid
                    Except.ok (some st)
                  else Except.ok none
                else Except.ok (none : Option DAGState)
            | none => Except.ok none
        | _, _ => Except.ok none
      match fired with
      | some st2 => .ok (true, st2)
      | none => tryMergeAux fuel st (.kids (st.get i).children)
  | _ + 1, st, .kids [] => .ok (false, st)
  | fuel + 1, st, .kids (c :: rest) => do
      let r ← tryMergeAux fuel st (.node c)
      if r.1 then .ok (true, r.2)
      else tryMergeAux fuel r.2 (.kids rest)

/-- The `while try_merge(self.dag): success = True` loop of
`combine_gates`, started at the root node `0`. -/
def combineGatesLoop : Nat → Nat → DAGState → Except PyErr (Bool × DAGState)
  | 0, _, _ => .error .recursionErr
  | wf + 1, fuel, st => do
      let r ← tryMergeAux fuel st (.node 0)
      if r.1 then do
        let r2 ← combineGatesLoop wf fuel r.2
        .ok (true, r2.2)
      else .ok (false, r.2)

/-- The simplifier state observed by the embedded rewrites: the DAG arena
plus the number of `update_circuit` calls made so far (standing for the
`steps_done`/`circuit_list` provenance bookkeeping).  `update_circuit`
re-linearises the circuit via `topological_sort`, whose only write to the
DAG is `dag.node.index = self.max_index` for gates whose `index` is `0` —
and `create_dag` gives every node a positive index, so on the states built
here it leaves the DAG unchanged (semantic checking and verbose printing are
off by default). -/
structure SimpState where
  dag : DAGState
  steps : Nat
  deriving DecidableEq, Repr

/-- `CliffordSimplifier.combine_gates()`: run the merge loop to fixpoint and
call `update_circuit("Combine gates")` when something fired; returns whether
it fired. -/
def combine_gates (wfuel tfuel : Nat) (s : SimpState) :
    Except PyErr (Bool × SimpState) := do
  let r ← combineGatesLoop wfuel tfuel s.dag
  if r.1 then .ok (true, ⟨r.2, s.steps + 1⟩)
  else .ok (false, ⟨r.2, s.steps⟩)

/-! ### The optimisation drivers (clifford_simplifier.py 363–406)

`simple_optimize` and `single_qudit_optimize` are loops over the rewrite
methods of the object.  They are embedded parameterically in the rewrite
methods they invoke (each of type `σ → σ × Bool`: the mutated object state
and the returned progress flag), which keeps the control flow — in
particular the `loops` counters that produce the return values — exactly as
in the source while quantifying over every possible behaviour of the
individual rewrites. -/

/-- The `while True:` loop of `simple_optimize`, with explicit fuel.  The
source increments `loops` on every iteration, re-runs `combine_gates` /
`remove_identity_gate` (with Python's short-circuit `success = success or
...`) until they stop firing, then tries each push rule in order, and
finally returns `loops != 1`. -/
def simple_optimize_loop {σ : Type}
    (combine removeId pushPauli pushH2 pushSW pushS pushSCX pushCZCX : σ → σ × Bool) :
    Nat → σ → Bool → Int → Option (σ × Bool)
  | 0, _, _, _ => none
  | fuel + 1, s, success, loops =>
      let loops := loops + 1
      let r0 := if success then (s, true) else combine s
      let r0b := if r0.2 then (r0.1, true) else removeId r0.1
      if r0b.2 then
        simple_optimize_loop combine removeId pushPauli pushH2 pushSW pushS
          pushSCX pushCZCX fuel r0b.1 false loops
      else
        let r1 := pushPauli r0b.1
        if r1.2 then
          simple_optimize_loop combine removeId pushPauli pushH2 pushSW pushS
            pushSCX pushCZCX fuel r1.1 false loops
        else
          let r2 := pushH2 r1.1
          if r2.2 then
            simple_optimize_loop combine removeId pushPauli pushH2 pushSW pushS
              pushSCX pushCZCX fuel r2.1 false loops
          else
            let r3 := pushSW r2.1
            if r3.2 then
              simple_optimize_loop combine removeId pushPauli pushH2 pushSW
                pushS pushSCX pushCZCX fuel r3.1 false loops
            else
              let r4 := pushS r3.1
              if r4.2 then
                simple_optimize_loop combine removeId pushPauli pushH2 pushSW
                  pushS pushSCX pushCZCX fuel r4.1 false loops
              else
                let r5 := pushSCX r4.1
                if r5.2 then
                  simple_optimize_loop combine removeId pushPauli pushH2 pushSW
                    pushS pushSCX pushCZCX fuel r5.1 false loops
                else
                  let r6 := pushCZCX r5.1
                  if r6.2 then
                    simple_optimize_loop combine removeId pushPauli pushH2
                      pushSW pushS pushSCX pushCZCX fuel r6.1 false loops
                  else some (r6.1, decide (loops ≠ 1))

/-- `CliffordSimplifier.simple_optimize()`: the loop entered with
`success = False` and `loops = 0`. -/
def simple_optimize {σ : Type}
    (combine removeId pushPauli pushH2 pushSW pushS pushSCX pushCZCX : σ → σ × Bool)
    (fuel : Nat) (s : σ) : Option (σ × Bool) :=
  simple_optimize_loop combine removeId pushPauli pushH2 pushSW pushS pushSCX
    pushCZCX fuel s false 0

/-- The `while True:` loop of `single_qudit_optimize`, with explicit fuel.
Each iteration runs `simple_optimize` (discarding its return value), then
`euler_decomp` and `euler_decomp2`, restarting after either fires.  The
`loops` variable is initialised to `0` before the loop and — unlike in
`simple_optimize` — never incremented anywhere in the body; the return value
is `loops != 1`. -/
def single_qudit_optimize_loop {σ : Type}
    (simpleOpt euler1 euler2 : σ → σ × Bool) :
    Nat → σ → Int → Option (σ × Bool)
  | 0, _, _ => none
  | fuel + 1, s, loops =>
      let s1 := (simpleOpt s).1
      let r1 := euler1 s1
      if r1.2 then
        single_qudit_optimize_loop simpleOpt euler1 euler2 fuel r1.1 loops
      else
        let r2 := euler2 r1.1
        if r2.2 then
          single_qudit_optimize_loop simpleOpt euler1 euler2 fuel r2.1 loops
        else some (r2.1, decide (loops ≠ 1))

/-- `CliffordSimplifier.single_qudit_optimize()`: the loop entered with
`loops = 0`. -/
def single_qudit_optimize {σ : Type}
    (simpleOpt euler1 euler2 : σ → σ × Bool) (fuel : Nat) (s : σ) :
    Option (σ × Bool) :=
  single_qudit_optimize_loop simpleOpt euler1 euler2 fuel s 0

/-! ### Concrete states used to settle the claims -/

/-- A dimension-3 graph holding exactly two Z-spiders `0` and `1` joined by a
Hadamard edge of weight 1 (spec Scenario A; both phases zero, as
`add_vertex` initialises them). -/
def gZZHad : GraphS :=
  { dim := 3,
    graph := [(0, [(1, ⟨3, 1, 0⟩)]), (1, [(0, ⟨3, 1, 0⟩)])],
    vindex := 2, nedges := 1,
    ty := [(0, VertexType.Z), (1, VertexType.Z)],
    phaseMap := [(0, ⟨3, 0, 0⟩), (1, ⟨3, 0, 0⟩)],
    qindex := [], maxq := -1, rindex := [], maxr := -1,
    inputs := [], outputs := [], scalar := Scalar.init 3 }

/-- `gZZHad` with the Hadamard edge removed (the outcome of the one `add_edge`
path between Z-spiders that completes: Hadamard weights summing to zero). -/
def gZZHadNoEdge : GraphS :=
  { dim := 3,
    graph := [(0, []), (1, [])],
    vindex := 2, nedges := 0,
    ty := [(0, VertexType.Z), (1, VertexType.Z)],
    phaseMap := [(0, ⟨3, 0, 0⟩), (1, ⟨3, 0, 0⟩)],
    qindex := [], maxq := -1, rindex := [], maxr := -1,
    inputs := [], outputs := [], scalar := Scalar.init 3 }

/-- A dimension-3 graph where vertex `0` is X-typed with the nonzero phase
`(1,0)` and has degree 2: a simple edge (weight 1) to vertex `1` and a
Hadamard edge (weight 1) to vertex `2`, both Z-typed. -/
def gXdeg2 : GraphS :=
  { dim := 3,
    graph := [(0, [(1, ⟨3, 0, 1⟩), (2, ⟨3, 1, 0⟩)]),
              (1, [(0, ⟨3, 0, 1⟩)]),
              (2, [(0, ⟨3, 1, 0⟩)])],
    vindex := 3, nedges := 2,
    ty := [(0, VertexType.X), (1, VertexType.Z), (2, VertexType.Z)],
    phaseMap := [(0, ⟨3, 1, 0⟩)],
    qindex := [], maxq := -1, rindex := [], maxr := -1,
    inputs := [], outputs := [], scalar := Scalar.init 3 }

/-- The circuit `CZ(0,1); S(0); CZ(0,2); S(1); CZ(1,2)` on three qudits.
`create_dag` produces the dependency DAG
root→CZ(0,1), CZ(0,1)→S(0)→CZ(0,2), CZ(0,1)→S(1), with `CZ(1,2)` a child of
both `CZ(0,2)` (node 3) and `S(1)` (node 4). -/
def circC5 : PyCircuit :=
  ⟨3, [PyGate.mkCZ 0 1, PyGate.mkS 0, PyGate.mkCZ 0 2,
       PyGate.mkS 1, PyGate.mkCZ 1 2]⟩

/-- Build the DAG of `circC5`, then `merge` node 1 (`CZ(0,1)`) with its child
node 4 (`S(1)`), then `merge` node 1 with its (newly acquired) child node 5
(`CZ(1,2)`).  Both calls satisfy `merge`'s stated precondition that the
second node is a child of the first. -/
def runC5 : Except PyErr DAGState := do
  let r ← create_dag circC5
  let st ← DAGState.dagMerge 100 r.1 1 4
  DAGState.dagMerge 100 st 1 5

/-- The two-gate circuit `S(q); S(q)` on `n` qudits (spec Scenario D). -/
def circSS (n q : Nat) : PyCircuit := ⟨n, [PyGate.mkS q, PyGate.mkS q]⟩

/-- Build the DAG of `S(q); S(q)` and run `combine_gates` on it, with the
stated loop fuels. -/
def runCombineSS (wfuel tfuel n q : Nat) : Except PyErr (Bool × SimpState) := do
  let r ← create_dag (circSS n q)
  combine_gates wfuel tfuel ⟨r.1, 0⟩

/-- The DAG `create_dag` builds for `S(q); S(q)`: root → node 1 → node 2. -/
def dagSS (q : Nat) : DAGState :=
  ⟨[(0, ⟨none, [], [1], []⟩),
    (1, ⟨some ⟨.S, q, none, 1, some ⟨3, 0, 1⟩, 1⟩, [0], [2], [0]⟩),
    (2, ⟨some ⟨.S, q, none, 1, some ⟨3, 0, 1⟩, 2⟩, [1], [], [1, 0]⟩)], 3⟩

/-- The expected simplifier state after `combine_gates` on `S(q); S(q)`:
node 1 holds a single `S` gate with repetitions 2 and no children (node 2 is
detached from the DAG; its `S` payload keeps phase `(0,1)` while the merged
phase on node 1 is `(0,0)` — `CliffordPhase.__add__` reads the `y` property,
which returns `_x`), and one `update_circuit` step was recorded. -/
def mergedSS (q : Nat) : SimpState :=
  ⟨⟨[(0, ⟨none, [], [1], []⟩),
     (1, ⟨some ⟨.S, q, none, 2, some ⟨3, 0, 0⟩, 1⟩, [0], [], [0]⟩),
     (2, ⟨some ⟨.S, q, none, 1, some ⟨3, 0, 1⟩, 2⟩, [], [], [1, 0]⟩)],
    3⟩, 1⟩

/-- A dimension-3 graph with vertices `0` (an input) and `1` (an output)
joined by a Hadamard edge; used to instantiate the `remove_vertex`
theorem. -/
def gInOut : GraphS :=
  { dim := 3,
    graph := [(0, [(1, ⟨3, 1, 0⟩)]), (1, [(0, ⟨3, 1, 0⟩)])],
    vindex := 2, nedges := 1,
    ty := [(0, VertexType.BOUNDARY), (1, VertexType.BOUNDARY)],
    phaseMap := [(0, ⟨3, 0, 0⟩), (1, ⟨3, 0, 0⟩)],
    qindex := [], maxq := -1, rindex := [], maxr := -1,
    inputs := [0], outputs := [1], scalar := Scalar.init 3 }

/-- Frame predicate used to state `remove_vertices` facts: all fields of the
graph state other than `graph` and `nedges` agree. -/
def GraphS.sameAux (g g2 : GraphS) : Prop :=
  g2.dim = g.dim ∧ g2.vindex = g.vindex ∧ g2.ty = g.ty ∧
  g2.phaseMap = g.phaseMap ∧ g2.qindex = g.qindex ∧ g2.maxq = g.maxq ∧
  g2.rindex = g.rindex ∧ g2.maxr = g.maxr ∧ g2.inputs = g.inputs ∧
  g2.outputs = g.outputs ∧ g2.scalar = g.scalar

/-! ## Theorems settling the claims -/

/-! ### Generic computation lemmas -/

/-- Bind of a successful `Except` computation. -/
theorem exbind_ok {ε α β : Type} (a : α) (f : α → Except ε β) :
    (Except.ok a : Except ε α) >>= f = f a := rfl

/-- Bind of a failed `Except` computation. -/
theorem exbind_err {ε α β : Type} (e : ε) (f : α → Except ε β) :
    (Except.error e : Except ε α) >>= f = .error e := rfl

/-- Pure for `Except`. -/
theorem expure {ε α : Type} (a : α) : (pure a : Except ε α) = .ok a := rfl

/-- Lookup in a constant-valued dictionary over a key list. -/
theorem alookup_map_const {α : Type} (v : α) :
    ∀ (l : List Nat) (q : Nat), q ∈ l →
      alookup (l.map (fun i => (i, v))) q = some v := by
  intro l
  induction l with
  | nil => intro q hq; cases hq
  | cons a t ih =>
      intro q hq
      by_cases hqa : a = q
      · simp [alookup, hqa]
      · have hmem : q ∈ t := by
          cases hq with
          | head => exact absurd rfl hqa
          | tail _ h2 => exact h2
        simp [alookup, hqa, ih q hmem]

/-- Looking up the key just assigned. -/
theorem alookup_aset_self {α : Type} :
    ∀ (l : List (Nat × α)) (k : Nat) (v : α), alookup (aset l k v) k = some v := by
  intro l
  induction l with
  | nil => intro k v; simp [aset, alookup]
  | cons p t ih =>
      intro k v
      by_cases hk : p.1 = k
      · simp [aset, hk, alookup]
      · simp [aset, hk, alookup, ih]

/-- Looking up a different key after an assignment. -/
theorem alookup_aset_ne {α : Type} :
    ∀ (l : List (Nat × α)) (k k2 : Nat) (v : α), k2 ≠ k →
      alookup (aset l k v) k2 = alookup l k2 := by
  intro l
  induction l with
  | nil =>
      intro k k2 v hne
      have hne2 : ¬ k = k2 := fun h2 => hne h2.symm
      simp [aset, alookup, hne2]
  | cons p t ih =>
      intro k k2 v hne
      by_cases hk : p.1 = k
      · subst hk
        have hne2 : ¬ p.1 = k2 := fun h2 => hne h2.symm
        simp [aset, alookup, hne2]
      · by_cases hk2 : p.1 = k2
        · simp [aset, alookup, hk, hk2, hne]
        · simp [aset, alookup, hk, hk2, ih _ _ _ hne]

/-- C1: fails on the code.  The `y` property of `CliffordPhase` returns
`self._x` (phase.py line 79), so for the phase constructed with
`x = 0, y = 1` the code reports `is_pauli()` and `is_zero()` as `True`, even
though the stored quadratic component `_y` is `1` — contradicting the claimed
equivalences `is_pauli ⇔ y = 0` and `is_zero ⇔ x = 0 ∧ y = 0`
(`is_pure_clifford ⇔ x = 0` does hold, since the `x` property is correct). -/
theorem C1_classification_reads_x_for_y :
    (CliffordPhase.mk 3 0 1).is_pauli = true ∧
    (CliffordPhase.mk 3 0 1).is_zero = true ∧
    (CliffordPhase.mk 3 0 1).y = 1 ∧
    (CliffordPhase.mk 3 0 1).is_pure_clifford = true := by
  refine ⟨rfl, rfl, rfl, rfl⟩

/-- C3: fails on the code.  On phases of equal dimension 3,
`(1,0) + (2,1)` yields stored components `(3, 3)` — the `x` component is not
reduced mod 3 (claim: `(1+2) % 3 = 0`) and the `y` component is
`p.x + q.x = 3` because the `y` property reads `_x` (claim:
`(0+1) % 3 = 1`); subtraction is wrong the same way.  The `ValueError` on a
dimension mismatch is as claimed. -/
theorem C3_add_not_componentwise_mod :
    CliffordPhase.add ⟨3, 1, 0⟩ ⟨3, 2, 1⟩ = .ok ⟨3, 3, 3⟩ ∧
    CliffordPhase.sub ⟨3, 1, 0⟩ ⟨3, 2, 1⟩ = .ok ⟨3, -1, -1⟩ ∧
    CliffordPhase.add ⟨3, 0, 0⟩ ⟨5, 0, 0⟩ = .error .valueErr := by
  refine ⟨rfl, rfl, rfl⟩

/-- C2: fails on the code.  On the Z–Z pair of `gZZHad` (existing Hadamard
edge of weight 1), inserting a simple edge takes the fusion branch and
inserting a Hadamard edge takes the Hadamard-sum branch with sum `2 ≠ 0`;
both raise `TypeError`, because the replacement edges are built as
`Edge(had=0, simple=1)` / `Edge(had=h, simple=0)` without the required
positional `dim` argument (graph_s.py lines 135 and 147) — the stored edge
never becomes the claimed canonical form.  Only the removal path (Hadamard
weights summing to 0 mod dim) completes as claimed.  Moreover the claimed
phase contribution is lost even before the `TypeError`: the last conjunct
shows that `add_to_phase` with the derived `CliffordPhase(3, x=0, y=2*h)`
leaves the spider's phase unchanged, because `CliffordPhase.__add__` reads
the broken `y` property. -/
theorem C2_add_edge_zz_raises_type_error :
    GraphS.add_edge gZZHad (0, 1) ⟨3, 0, 1⟩ = .error .typeErr ∧
    GraphS.add_edge gZZHad (0, 1) ⟨3, 1, 0⟩ = .error .typeErr ∧
    GraphS.add_edge gZZHad (0, 1) ⟨3, 2, 0⟩ = .ok gZZHadNoEdge ∧
    GraphS.add_to_phase gZZHad 0 ⟨3, 0, 2⟩ = .ok gZZHad := by
  refine ⟨rfl, rfl, rfl, rfl⟩

/-- C4: fails on the code.  In `check_z_elim`, `and` binds tighter than
`or`, so the degree/phase/type guard conjoins only with the first edge-type
case: on `gXdeg2`, whose vertex `0` is X-typed with nonzero phase `(1,0)`
but whose incident edge types are `(SimpleEdge, HadEdge)`, the second
disjunct fires and `check_z_elim` returns `True`. -/
theorem C4_guard_not_over_whole_disjunction :
    check_z_elim gXdeg2 0 = .ok true ∧
    gXdeg2.type 0 = .ok VertexType.X ∧
    (gXdeg2.phase 0).is_zero = false := by
  refine ⟨rfl, rfl, rfl⟩

/-- C5: fails on the code.  Starting from `create_dag` on
`CZ(0,1); S(0); CZ(0,2); S(1); CZ(1,2)` and merging node 1 (`CZ(0,1)`) first
with its child `S(1)` and then with its child `CZ(1,2)` — both merges
satisfying `merge`'s precondition — re-parents node 1 under node 3
(`CZ(0,2)`), which is a descendant of node 1.  Afterwards node 1 is in its
own ancestor set and the children lists form the cycle `1 → 2 → 3 → 1`. -/
theorem C5_merge_makes_node_its_own_ancestor :
    runC5.map (fun st =>
      ((st.get 1).ancestors.contains 1,
       (st.get 1).children, (st.get 2).children, (st.get 3).children))
      = .ok (true, [2], [3], [1]) := by
  rfl

/-- Helper for C6: the `single_qudit_optimize` loop body never modifies
`loops`, so on termination the returned flag is `loops != 1` for the value
`loops` had on entry. -/
theorem single_qudit_optimize_loop_result {σ : Type}
    (f e1 e2 : σ → σ × Bool) :
    ∀ (fuel : Nat) (s : σ) (loops : Int) (s2 : σ) (b : Bool),
      single_qudit_optimize_loop f e1 e2 fuel s loops = some (s2, b) →
      b = decide (loops ≠ 1) := by
  intro fuel
  induction fuel with
  | zero =>
      intro s loops s2 b h
      simp [single_qudit_optimize_loop] at h
  | succ n ih =>
      intro s loops s2 b h
      simp only [single_qudit_optimize_loop] at h
      split at h
      · exact ih _ _ _ _ h
      · split at h
        · exact ih _ _ _ _ h
        · simp only [Option.some.injEq, Prod.mk.injEq] at h
          exact h.2.symm

/-- C6: fails on the code.  `single_qudit_optimize` initialises `loops = 0`
and — unlike `simple_optimize` — never increments it, so its return value
`loops != 1` is `True` whenever the loop terminates, for every possible
behaviour of `simple_optimize`, `euler_decomp` and `euler_decomp2`; in
particular it returns `True` when no rewrite fired at all. -/
theorem C6_single_qudit_optimize_always_true {σ : Type}
    (simpleOpt euler1 euler2 : σ → σ × Bool) (fuel : Nat) (s s2 : σ) (b : Bool)
    (h : single_qudit_optimize simpleOpt euler1 euler2 fuel s = some (s2, b)) :
    b = true := by
  have hres :=
    single_qudit_optimize_loop_result simpleOpt euler1 euler2 fuel s 0 s2 b h
  simpa using hres

/-- Witness for C6: with rewrites that never fire (so that no progress is
made), `single_qudit_optimize` terminates with `True`. -/
theorem C6_single_qudit_optimize_always_true_witness :
    single_qudit_optimize (σ := Unit) (fun s => (s, false)) (fun s => (s, false))
      (fun s => (s, false)) 2 () = some ((), true) ∧ (true : Bool) = true :=
  ⟨rfl, C6_single_qudit_optimize_always_true (fun s => (s, false))
    (fun s => (s, false)) (fun s => (s, false)) 2 () () true rfl⟩

/-- Context for C6: `simple_optimize`, by contrast, does return `False` when
none of its rules fires — its loop increments `loops` each iteration, so a
single quiet pass returns `1 != 1`. -/
theorem simple_optimize_no_progress_returns_false {σ : Type}
    (c r p1 p2 p3 p4 p5 p6 : σ → σ × Bool)
    (hc : ∀ t, (c t).2 = false) (hr : ∀ t, (r t).2 = false)
    (h1 : ∀ t, (p1 t).2 = false) (h2 : ∀ t, (p2 t).2 = false)
    (h3 : ∀ t, (p3 t).2 = false) (h4 : ∀ t, (p4 t).2 = false)
    (h5 : ∀ t, (p5 t).2 = false) (h6 : ∀ t, (p6 t).2 = false)
    (fuel : Nat) (s : σ) :
    (simple_optimize c r p1 p2 p3 p4 p5 p6 (fuel + 1) s).map Prod.snd =
      some false := by
  simp [simple_optimize, simple_optimize_loop, hc, hr, h1, h2, h3, h4, h5, h6]

/-- A lookup hit gives list membership of the pair. -/
theorem alookup_mem {α : Type} :
    ∀ (l : List (Nat × α)) (k : Nat) (a : α), alookup l k = some a → (k, a) ∈ l := by
  intro l
  induction l with
  | nil => intro k a h; simp [alookup] at h
  | cons p t ih =>
      intro k a h
      cases p with
      | mk k1 v1 =>
        by_cases hk : k1 = k
        · simp [alookup, hk] at h
          subst hk
          subst h
          exact List.mem_cons_self _ _
        · simp [alookup, hk] at h
          exact List.mem_cons_of_mem _ (ih k a h)

/-- A key is found exactly when it occurs in the key list. -/
theorem alookup_isSome_iff {α : Type} :
    ∀ (l : List (Nat × α)) (k : Nat), (alookup l k).isSome ↔ k ∈ l.map Prod.fst := by
  intro l
  induction l with
  | nil => intro k; simp [alookup]
  | cons p t ih =>
      intro k
      by_cases hk : p.1 = k
      · simp [alookup, hk]
      · have hk2 : ¬ k = p.1 := fun h2 => hk h2.symm
        simp [alookup, hk, ih, hk2]

/-- Lookup misses keys that are not present. -/
theorem alookup_eq_none_of_not_mem {α : Type} (l : List (Nat × α)) (k : Nat)
    (h : k ∉ l.map Prod.fst) : alookup l k = none := by
  cases hl : alookup l k with
  | none => rfl
  | some a =>
      exact absurd ((alookup_isSome_iff l k).mp (by simp [hl])) h

/-- Deleting a present key succeeds. -/
theorem adel_ok_of_mem {α : Type} :
    ∀ (l : List (Nat × α)) (k : Nat), k ∈ l.map Prod.fst →
      ∃ l2, adel l k = .ok l2 := by
  intro l
  induction l with
  | nil => intro k h; simp at h
  | cons p t ih =>
      intro k hk
      by_cases h : p.1 = k
      · exact ⟨t, by simp [adel, h]⟩
      · have hmem : k ∈ t.map Prod.fst := by
          simp at hk
          rcases hk with h1 | h1
          · exact absurd h1.symm h
          · simpa using h1
        obtain ⟨l2, hl2⟩ := ih k hmem
        exact ⟨p :: l2, by simp [adel, h, hl2, Except.map]⟩

/-- Deletion leaves other keys alone. -/
theorem alookup_adel_ne {α : Type} :
    ∀ (l l2 : List (Nat × α)) (k k2 : Nat), adel l k = .ok l2 → k2 ≠ k →
      alookup l2 k2 = alookup l k2 := by
  intro l
  induction l with
  | nil => intro l2 k k2 h; simp [adel] at h
  | cons p t ih =>
      intro l2 k k2 h hne
      by_cases hk : p.1 = k
      · simp [adel, hk] at h
        subst h
        have hne2 : ¬ p.1 = k2 := by rw [hk]; exact fun h2 => hne h2.symm
        simp [alookup, hne2]
      · simp [adel, hk] at h
        cases ht : adel t k with
        | error e => rw [ht] at h; simp [Except.map] at h
        | ok l2h =>
            rw [ht] at h
            simp [Except.map] at h
            subst h
            by_cases hk2 : p.1 = k2
            · simp [alookup, hk2]
            · simp [alookup, hk2, ih l2h k k2 ht hne]

/-- Deletion erases the key from the key list. -/
theorem keys_adel {α : Type} :
    ∀ (l l2 : List (Nat × α)) (k : Nat), adel l k = .ok l2 →
      l2.map Prod.fst = (l.map Prod.fst).erase k := by
  intro l
  induction l with
  | nil => intro l2 k h; simp [adel] at h
  | cons p t ih =>
      intro l2 k h
      by_cases hk : p.1 = k
      · simp [adel, hk] at h
        subst h
        simp [hk]
      · simp [adel, hk] at h
        cases ht : adel t k with
        | error e => rw [ht] at h; simp [Except.map] at h
        | ok l2h =>
            rw [ht] at h
            simp [Except.map] at h
            subst h
            have hbe : (p.1 == k) = false := by simp [hk]
            simp [List.erase_cons, hbe, ih l2h k ht]

/-- After deleting a key from a duplicate-free dictionary it is gone. -/
theorem alookup_adel_self {α : Type}
    (l l2 : List (Nat × α)) (k : Nat) (hnd : (l.map Prod.fst).Nodup)
    (h : adel l k = .ok l2) : alookup l2 k = none := by
  apply alookup_eq_none_of_not_mem
  rw [keys_adel l l2 k h]
  exact hnd.not_mem_erase

/-- `try/except`-guarded deletion agrees with plain deletion when it
succeeds. -/
theorem arem_eq_of_adel {α : Type} :
    ∀ (l l2 : List (Nat × α)) (k : Nat), adel l k = .ok l2 → arem l k = l2 := by
  intro l
  induction l with
  | nil => intro l2 k h; simp [adel] at h
  | cons p t ih =>
      intro l2 k h
      by_cases hk : p.1 = k
      · simp [adel, hk] at h
        subst h
        simp [arem, hk]
      · simp [adel, hk] at h
        cases ht : adel t k with
        | error e => rw [ht] at h; simp [Except.map] at h
        | ok l2h =>
            rw [ht] at h
            simp [Except.map] at h
            subst h
            simp [arem, hk, ih l2h k ht]

/-- `try/except`-guarded deletion of an absent key is the identity. -/
theorem arem_eq_self_of_not_mem {α : Type} :
    ∀ (l : List (Nat × α)) (k : Nat), k ∉ l.map Prod.fst → arem l k = l := by
  intro l
  induction l with
  | nil => intro k _; rfl
  | cons p t ih =>
      intro k hk
      have h1 : ¬ p.1 = k := by
        intro h2
        exact hk (by simp [h2])
      have h2 : k ∉ t.map Prod.fst := by
        intro h3
        exact hk (by simp [h3])
      simp [arem, h1, ih k h2]

/-- Guarded deletion removes the key from a duplicate-free dictionary. -/
theorem not_mem_keys_arem {α : Type}
    (l : List (Nat × α)) (k : Nat) (hnd : (l.map Prod.fst).Nodup) :
    k ∉ (arem l k).map Prod.fst := by
  by_cases hm : k ∈ l.map Prod.fst
  · obtain ⟨l2, hdel⟩ := adel_ok_of_mem l k hm
    rw [arem_eq_of_adel l l2 k hdel, keys_adel l l2 k hdel]
    exact hnd.not_mem_erase
  · rw [arem_eq_self_of_not_mem l k hm]
    exact hm

/-- Assignment to a present key preserves the key list. -/
theorem keys_aset_of_mem {α : Type} :
    ∀ (l : List (Nat × α)) (k : Nat) (v : α), k ∈ l.map Prod.fst →
      (aset l k v).map Prod.fst = l.map Prod.fst := by
  intro l
  induction l with
  | nil => intro k v h; simp at h
  | cons p t ih =>
      intro k v hk
      by_cases h : p.1 = k
      · simp [aset, h]
      · have hmem : k ∈ t.map Prod.fst := by
          simp at hk
          rcases hk with h1 | h1
          · exact absurd h1.symm h
          · simpa using h1
        simp [aset, h, ih k v hmem]

/-- Helper for C7: `create_dag` on `S(q); S(q)` (any qudit count `n > q`)
yields the chain root → node 1 → node 2 with indices 1 and 2. -/
theorem create_dag_SS (n q : Nat) (h : q < n) :
    create_dag (circSS n q) = .ok (dagSS q, 3) := by
  have h0 : alookup ((List.range n).map (fun i => (i, (none : Option Nat)))) q
      = some none :=
    alookup_map_const _ _ q (List.mem_range.mpr h)
  have h1 : alookup
      (aset ((List.range n).map (fun i => (i, (none : Option Nat)))) q (some 1)) q
      = some (some 1) :=
    alookup_aset_self _ _ _
  simp [create_dag, circSS, createDagStep, alookupE, h0, h1, DAGState.newNode,
    DAGState.addChild, DAGState.get, DAGState.set, alookup, aset, setInsert,
    setUnion, PyGate.mkS, DAGNode.empty, dagSS, exbind_ok, exbind_err, expure]

/-- Helper for C7: `combine_gates` on that DAG fires exactly once, merging
node 2 into node 1. -/
theorem combine_gates_SS (q w f : Nat) :
    combine_gates (w + 2) (f + 9) ⟨dagSS q, 0⟩ = .ok (true, mergedSS q) := by
  simp [combine_gates, combineGatesLoop, tryMergeAux, DAGState.get, DAGState.set,
    alookup, aset, PyGate.merge, PyGate.mergePhaseReps, CliffordPhase.add,
    CliffordPhase.xProp, CliffordPhase.yProp, DAGState.dagMerge, pyRemove,
    setInsert, setUnion, isSupersetOf, DAGState.addChild, dagSS, mergedSS,
    exbind_ok, exbind_err, expure]

/-- C7: holds on the code.  For any qudit `q < n` and any sufficient fuel,
building the DAG of the circuit `S(q); S(q)` (two adjacent `S` gates on the
same qudit, repetitions 1 and 1, the second the sole child of the first) and
running `combine_gates` returns `True` and produces `mergedSS q`: node 1
holds a single `S` gate with repetitions 2, and node 2 is removed from the
DAG (no parents, no children, no longer a child of node 1). -/
theorem C7_combine_gates_merges_adjacent_S (n q w f : Nat) (h : q < n) :
    runCombineSS (w + 2) (f + 9) n q = .ok (true, mergedSS q) := by
  rw [runCombineSS, create_dag_SS n q h]
  exact combine_gates_SS q w f

/-- Witness for C7: the single-qudit instance `S(0); S(0)`. -/
theorem C7_combine_gates_merges_adjacent_S_witness :
    runCombineSS 2 9 1 0 = .ok (true, mergedSS 0) :=
  C7_combine_gates_merges_adjacent_S 1 0 0 0 (by decide)

/-- C8: holds on the code.  On the two-Z-spider Hadamard-edge graph of
Scenario A, each vertex has degree 1, so `check_z_elim` returns `False` at
its first test and `z_elim` returns `False` with the state — every vertex,
edge, type, phase, layout index and the scalar — unchanged, raising no
error. -/
theorem C8_z_elim_no_match_is_frame_preserving :
    z_elim gZZHad 0 = .ok (false, gZZHad) ∧
    z_elim gZZHad 1 = .ok (false, gZZHad) := by
  refine ⟨rfl, rfl⟩

/-- C9: holds on the code.  Whenever no edge record is stored for the pair
`(v, w)`, the `KeyError` handler in `edge_object` builds `Edge(0,0)`, whose
constructor reduces the components modulo `dim = 0` and therefore raises
`ZeroDivisionError`. -/
theorem C9_edge_object_missing_edge_zero_division (g : GraphS) (v w : Nat)
    (h : g.storedEdge v w = none) :
    g.edge_object (v, w) = .error .zeroDivErr := by
  unfold GraphS.edge_object
  rw [show (v, w).1 = v from rfl, show (v, w).2 = w from rfl, h]
  rfl

/-- Witness for C9: the empty dimension-3 graph stores no edge between `0`
and `0`, and `edge_object` raises `ZeroDivisionError` there. -/
theorem C9_edge_object_missing_edge_zero_division_witness :
    (GraphS.init 3).edge_object (0, 0) = .error .zeroDivErr ∧
    (GraphS.init 3).storedEdge 0 0 = none :=
  ⟨C9_edge_object_missing_edge_zero_division (GraphS.init 3) 0 0 rfl, rfl⟩

/-- Reflexivity of the auxiliary-field frame. -/
theorem sameAux_refl (g : GraphS) : g.sameAux g := by
  simp [GraphS.sameAux]

/-- Transitivity of the auxiliary-field frame. -/
theorem sameAux_trans {g g2 g3 : GraphS} (h1 : g.sameAux g2) (h2 : g2.sameAux g3) :
    g.sameAux g3 := by
  unfold GraphS.sameAux at h1 h2 ⊢
  obtain ⟨a1, a2, a3, a4, a5, a6, a7, a8, a9, a10, a11⟩ := h1
  obtain ⟨b1, b2, b3, b4, b5, b6, b7, b8, b9, b10, b11⟩ := h2
  exact ⟨b1.trans a1, b2.trans a2, b3.trans a3, b4.trans a4, b5.trans a5,
    b6.trans a6, b7.trans a7, b8.trans a8, b9.trans a9, b10.trans a10, b11.trans a11⟩

/-- One edge-severing iteration on the self-loop key. -/
theorem removeVertexEdgeStep_self (g : GraphS) (v : Nat)
    (adj adj2 : List (Nat × Edge))
    (hv : alookup g.graph v = some adj) (hdel : adel adj v = .ok adj2) :
    GraphS.removeVertexEdgeStep g v v =
      .ok {g with nedges := g.nedges - 1, graph := aset g.graph v adj2} := by
  simp [GraphS.removeVertexEdgeStep, alookupE, hv, hdel, exbind_ok, exbind_err,
    expure]

/-- One edge-severing iteration on an ordinary neighbour key. -/
theorem removeVertexEdgeStep_ne (g : GraphS) (v v1 : Nat)
    (adj adj2 adj1 adj12 : List (Nat × Edge)) (hne : v1 ≠ v)
    (hv : alookup g.graph v = some adj) (hdel : adel adj v1 = .ok adj2)
    (hv1 : alookup g.graph v1 = some adj1) (hdel1 : adel adj1 v = .ok adj12) :
    GraphS.removeVertexEdgeStep g v v1 =
      .ok {g with nedges := g.nedges - 1,
                  graph := aset (aset g.graph v adj2) v1 adj12} := by
  have hne2 : v ≠ v1 := fun h => hne h.symm
  have hlook : alookup (aset g.graph v adj2) v1 = some adj1 := by
    rw [alookup_aset_ne _ _ _ _ hne]
    exact hv1
  simp [GraphS.removeVertexEdgeStep, alookupE, hv, hdel, hlook, hdel1, hne2,
    exbind_ok, exbind_err, expure]

/-- Net effect of the edge-severing loop of `remove_vertices` over a
duplicate-free list of neighbour keys of `v` that are symmetrically stored:
the loop succeeds, the row of `v` survives (to be deleted next), the key set
of the graph dictionary is unchanged, rows of keys outside the list are
untouched, rows of listed keys lose exactly the key `v`, and every field
other than `graph`/`nedges` is unchanged. -/
theorem removeVertexEdgeLoop (v : Nat) :
    ∀ (vs : List Nat) (g : GraphS) (adj : List (Nat × Edge)),
      alookup g.graph v = some adj →
      vs.Nodup →
      (∀ v1 ∈ vs, v1 ∈ adj.map Prod.fst) →
      (∀ v1 ∈ vs, v1 ≠ v →
        ∃ adj1, alookup g.graph v1 = some adj1 ∧ v ∈ adj1.map Prod.fst) →
      ∃ g2, vs.foldlM (fun g3 v1 => g3.removeVertexEdgeStep v v1) g = .ok g2 ∧
        (alookup g2.graph v).isSome ∧
        g2.graph.map Prod.fst = g.graph.map Prod.fst ∧
        (∀ u, u ≠ v → u ∉ vs → alookup g2.graph u = alookup g.graph u) ∧
        (∀ u, u ≠ v → u ∈ vs →
          alookup g2.graph u = (alookup g.graph u).map (fun r => arem r v)) ∧
        GraphS.sameAux g g2 := by
  intro vs
  induction vs with
  | nil =>
      intro g adj hv _hnd _hmem _hsym
      refine ⟨g, rfl, by simp [hv], rfl, fun u _ _ => rfl, ?_, sameAux_refl g⟩
      intro u _ hu
      exact absurd hu (List.not_mem_nil u)
  | cons v1 vs ih =>
      intro g adj hv hnd hmem hsym
      have hnd2 := List.nodup_cons.mp hnd
      have hv1adj : v1 ∈ adj.map Prod.fst := hmem v1 (List.mem_cons_self _ _)
      obtain ⟨adj2, hdel⟩ := adel_ok_of_mem adj v1 hv1adj
      have hkeys2 : adj2.map Prod.fst = (adj.map Prod.fst).erase v1 :=
        keys_adel adj adj2 v1 hdel
      by_cases hveq : v1 = v
      · subst hveq
        set gb : GraphS :=
          ({g with nedges := g.nedges - 1, graph := aset g.graph v1 adj2} : GraphS)
          with hgb
        have hstep := removeVertexEdgeStep_self g v1 adj adj2 hv hdel
        have hlookb : alookup gb.graph v1 = some adj2 := by
          simp [hgb, alookup_aset_self]
        have hmem2 : ∀ v2 ∈ vs, v2 ∈ adj2.map Prod.fst := by
          intro v2 hv2
          rw [hkeys2]
          have hne : v2 ≠ v1 := fun h => hnd2.1 (h ▸ hv2)
          exact (List.mem_erase_of_ne hne).mpr (hmem v2 (List.mem_cons_of_mem _ hv2))
        have hsym2 : ∀ v2 ∈ vs, v2 ≠ v1 →
            ∃ adj1, alookup gb.graph v2 = some adj1 ∧ v1 ∈ adj1.map Prod.fst := by
          intro v2 hv2 hne
          obtain ⟨adj1, ha, hb⟩ := hsym v2 (List.mem_cons_of_mem _ hv2) hne
          refine ⟨adj1, ?_, hb⟩
          rw [hgb]
          simpa [alookup_aset_ne _ _ _ _ hne] using ha
        obtain ⟨g2, hfold, hsome, hkeys, hun, hch, haux⟩ :=
          ih gb adj2 hlookb hnd2.2 hmem2 hsym2
        refine ⟨g2, ?_, hsome, ?_, ?_, ?_, ?_⟩
        · simp [List.foldlM, hstep, exbind_ok]
          exact hfold
        · rw [hkeys, hgb]
          simp [keys_aset_of_mem g.graph v1 adj2
            ((alookup_isSome_iff g.graph v1).mp (by simp [hv]))]
        · intro u hu hun2
          have hun3 : u ∉ vs := fun h => hun2 (List.mem_cons_of_mem _ h)
          rw [hun u hu hun3, hgb]
          simp [alookup_aset_ne _ _ _ _ hu]
        · intro u hu huin
          have huvs : u ∈ vs := by
            rcases List.mem_cons.mp huin with h | h
            · exact absurd h hu
            · exact h
          rw [hch u hu huvs, hgb]
          simp [alookup_aset_ne _ _ _ _ hu]
        · apply sameAux_trans _ haux
          simp [hgb, GraphS.sameAux]
      · obtain ⟨adj1, hv1look, hv1mem⟩ := hsym v1 (List.mem_cons_self _ _) hveq
        obtain ⟨adj12, hdel1⟩ := adel_ok_of_mem adj1 v hv1mem
        set gc : GraphS :=
          ({g with nedges := g.nedges - 1,
                   graph := aset (aset g.graph v adj2) v1 adj12} : GraphS) with hgc
        have hstep :=
          removeVertexEdgeStep_ne g v v1 adj adj2 adj1 adj12 hveq hv hdel hv1look hdel1
        have hlookc : alookup gc.graph v = some adj2 := by
          have hvne : v ≠ v1 := fun h => hveq h.symm
          rw [hgc]
          simp [alookup_aset_ne _ _ _ _ hvne, alookup_aset_self]
        have hmem2 : ∀ v2 ∈ vs, v2 ∈ adj2.map Prod.fst := by
          intro v2 hv2
          rw [hkeys2]
          have hne : v2 ≠ v1 := fun h => hnd2.1 (h ▸ hv2)
          exact (List.mem_erase_of_ne hne).mpr (hmem v2 (List.mem_cons_of_mem _ hv2))
        have hsym2 : ∀ v2 ∈ vs, v2 ≠ v →
            ∃ adj1b, alookup gc.graph v2 = some adj1b ∧ v ∈ adj1b.map Prod.fst := by
          intro v2 hv2 hne
          obtain ⟨adj1b, ha, hb⟩ := hsym v2 (List.mem_cons_of_mem _ hv2) hne
          have hnev1 : v2 ≠ v1 := fun h => hnd2.1 (h ▸ hv2)
          refine ⟨adj1b, ?_, hb⟩
          rw [hgc]
          simp [alookup_aset_ne _ _ _ _ hnev1, alookup_aset_ne _ _ _ _ hne]
          exact ha
        obtain ⟨g2, hfold, hsome, hkeys, hun, hch, haux⟩ :=
          ih gc adj2 hlookc hnd2.2 hmem2 hsym2
        refine ⟨g2, ?_, hsome, ?_, ?_, ?_, ?_⟩
        · simp [List.foldlM, hstep, exbind_ok]
          exact hfold
        · rw [hkeys, hgc]
          have h1 : v ∈ g.graph.map Prod.fst :=
            (alookup_isSome_iff g.graph v).mp (by simp [hv])
          have h2 : v1 ∈ (aset g.graph v adj2).map Prod.fst := by
            rw [keys_aset_of_mem g.graph v adj2 h1]
            exact (alookup_isSome_iff g.graph v1).mp (by simp [hv1look])
          simp [keys_aset_of_mem _ _ _ h2, keys_aset_of_mem _ _ _ h1]
        · intro u hu hun2
          have hnev1 : u ≠ v1 := fun h => hun2 (h ▸ List.mem_cons_self v1 vs)
          have hun3 : u ∉ vs := fun h => hun2 (List.mem_cons_of_mem _ h)
          rw [hun u hu hun3, hgc]
          simp [alookup_aset_ne _ _ _ _ hnev1, alookup_aset_ne _ _ _ _ hu]
        · intro u hu huin
          rcases List.mem_cons.mp huin with h | h
          · subst h
            rw [hun u hu hnd2.1, hgc]
            simp [alookup_aset_self, hv1look, arem_eq_of_adel adj1 adj12 v hdel1]
          · have hnev1 : u ≠ v1 := fun h2 => hnd2.1 (h2 ▸ h)
            rw [hch u hu h, hgc]
            simp [alookup_aset_ne _ _ _ _ hnev1, alookup_aset_ne _ _ _ _ hu]
        · apply sameAux_trans _ haux
          simp [hgc, GraphS.sameAux]

/-- A conditional removal from input/output tuples always equals a filter. -/
theorem filter_if_mem (l : List Nat) (v : Nat) :
    (if v ∈ l then l.filter (fun u => u ≠ v) else l) =
      l.filter (fun u => u ≠ v) := by
  split
  · rfl
  · rename_i h
    symm
    apply List.filter_eq_self.mpr
    intro a ha
    simp only [decide_eq_true_eq]
    exact fun heq => h (heq ▸ ha)

/-- Net effect of one `remove_vertices` loop body on a well-formed graph:
success, the vertex and all its incident edges are gone, other rows only
lose the key `v`, the input/output tuples are filtered in order, and
`dim`/`vindex`/`scalar` are untouched. -/
theorem removeOneVertex_spec (g : GraphS) (v : Nat) (adj : List (Nat × Edge))
    (hv : alookup g.graph v = some adj)
    (hnd : (g.graph.map Prod.fst).Nodup)
    (hrows : ∀ p ∈ g.graph, (p.2.map Prod.fst).Nodup)
    (hsym : ∀ p ∈ g.graph, ∀ q ∈ p.2,
      ∃ adj2, alookup g.graph q.1 = some adj2 ∧ p.1 ∈ adj2.map Prod.fst)
    (hty : (alookup g.ty v).isSome) (hph : (alookup g.phaseMap v).isSome) :
    ∃ g2, GraphS.removeOneVertex g v = .ok g2 ∧
      alookup g2.graph v = none ∧
      (∀ u, u ≠ v → alookup g2.graph u = (alookup g.graph u).map (fun r => arem r v)) ∧
      g2.graph.map Prod.fst = (g.graph.map Prod.fst).erase v ∧
      g2.inputs = g.inputs.filter (fun u => u ≠ v) ∧
      g2.outputs = g.outputs.filter (fun u => u ≠ v) ∧
      g2.dim = g.dim ∧ g2.vindex = g.vindex ∧ g2.scalar = g.scalar := by
  have hpair : (v, adj) ∈ g.graph := alookup_mem g.graph v adj hv
  have hvsnd : (adj.map Prod.fst).Nodup := hrows (v, adj) hpair
  have hloop := removeVertexEdgeLoop v (adj.map Prod.fst) g adj hv hvsnd
    (fun v1 h => h)
    (by
      intro v1 hv1 hne
      obtain ⟨q, hq, hq1⟩ := List.mem_map.mp hv1
      obtain ⟨adj2, ha, hb⟩ := hsym (v, adj) hpair q hq
      exact ⟨adj2, hq1 ▸ ha, hb⟩)
  obtain ⟨gm, hfold, hsome, hkeysm, hun, hch, haux⟩ := hloop
  obtain ⟨a1, a2, a3, a4, a5, a6, a7, a8, a9, a10, a11⟩ := haux
  have hmemk : v ∈ gm.graph.map Prod.fst := (alookup_isSome_iff _ _).mp hsome
  obtain ⟨graph3, hdel3⟩ := adel_ok_of_mem gm.graph v hmemk
  have htym : (alookup gm.ty v).isSome := by rw [a3]; exact hty
  obtain ⟨ty3, hdelty⟩ := adel_ok_of_mem gm.ty v ((alookup_isSome_iff _ _).mp htym)
  have hphm : (alookup gm.phaseMap v).isSome := by rw [a4]; exact hph
  obtain ⟨ph3, hdelph⟩ :=
    adel_ok_of_mem gm.phaseMap v ((alookup_isSome_iff _ _).mp hphm)
  have hndm : (gm.graph.map Prod.fst).Nodup := by rw [hkeysm]; exact hnd
  have hnone : alookup graph3 v = none :=
    alookup_adel_self gm.graph graph3 v hndm hdel3
  have hothers : ∀ u, u ≠ v →
      alookup graph3 u = (alookup g.graph u).map (fun r => arem r v) := by
    intro u hu
    rw [alookup_adel_ne gm.graph graph3 v u hdel3 hu]
    by_cases huvs : u ∈ adj.map Prod.fst
    · exact hch u hu huvs
    · rw [hun u hu huvs]
      cases hlu : alookup g.graph u with
      | none => rfl
      | some adjU =>
          have hnomem : v ∉ adjU.map Prod.fst := by
            intro hvm
            obtain ⟨q, hq, hq1⟩ := List.mem_map.mp hvm
            obtain ⟨adj2, ha, hb⟩ :=
              hsym (u, adjU) (alookup_mem g.graph u adjU hlu) q hq
            rw [hq1, hv] at ha
            have hadj : adj2 = adj := by
              injection ha with hinj
              exact hinj.symm
            rw [hadj] at hb
            exact huvs hb
          simp [arem_eq_self_of_not_mem adjU v hnomem]
  have hkeys3 : graph3.map Prod.fst = (g.graph.map Prod.fst).erase v := by
    rw [keys_adel gm.graph graph3 v hdel3, hkeysm]
  have heq : GraphS.removeOneVertex g v = .ok
      ({ dim := gm.dim, graph := graph3, vindex := gm.vindex, nedges := gm.nedges,
         ty := ty3, phaseMap := ph3, qindex := arem gm.qindex v, maxq := gm.maxq,
         rindex := arem gm.rindex v, maxr := gm.maxr,
         inputs := g.inputs.filter (fun u => u ≠ v),
         outputs := g.outputs.filter (fun u => u ≠ v),
         scalar := gm.scalar } : GraphS) := by
    rw [GraphS.removeOneVertex]
    simp only [alookupE, hv, exbind_ok, hfold, hdel3, hdelty, hdelph]
    rw [← a9, ← a10, ← filter_if_mem gm.inputs v, ← filter_if_mem gm.outputs v]
    split <;> split <;> rfl
  refine ⟨_, heq, hnone, hothers, hkeys3, rfl, rfl, a1, a2, a11⟩

/-- The handle returned by `add_vertex` is the current `_vindex`. -/
theorem add_vertex_returns_vindex (g : GraphS) (t : Nat) (qb r : Int)
    (ph : Option CliffordPhase) : (g.add_vertex t qb r ph).2 = g.vindex := rfl

/-- C10 (amended): for every well-formed graph and vertex `v` in it,
`remove_vertex` succeeds, deletes all edges incident to `v` (its row is gone
and `v` appears in no remaining adjacency row), removes `v` from the ordered
input and output tuples while preserving the order of the other entries, and
resets the fresh-handle counter to `max(remaining vertices, default 0) + 1` —
which is also the handle the next `add_vertex` returns.  (That handle equals
the removed vertex's handle only when `v` was maximal and the remaining
maximum is `v - 1`; see the counterexample for the claim's stronger "the
removed maximal handle is reused" reading.) -/
theorem C10_remove_vertex_spec (g : GraphS) (v : Nat)
    (hv : v ∈ g.graph.map Prod.fst)
    (hnd : (g.graph.map Prod.fst).Nodup)
    (hrows : ∀ p ∈ g.graph, (p.2.map Prod.fst).Nodup)
    (hsymB : ∀ p ∈ g.graph, ∀ q ∈ p.2,
      (alookup g.graph q.1).isSome ∧
        p.1 ∈ ((alookup g.graph q.1).getD []).map Prod.fst)
    (htyB : ∀ p ∈ g.graph,
      (alookup g.ty p.1).isSome ∧ (alookup g.phaseMap p.1).isSome) :
    ∃ g2, g.remove_vertex v = .ok g2 ∧
      alookup g2.graph v = none ∧
      (∀ u r, alookup g2.graph u = some r → v ∉ r.map Prod.fst) ∧
      (∀ u, u ≠ v → alookup g2.graph u = (alookup g.graph u).map (fun r => arem r v)) ∧
      g2.inputs = g.inputs.filter (fun u => u ≠ v) ∧
      g2.outputs = g.outputs.filter (fun u => u ≠ v) ∧
      g2.vindex = maxKeyD g2.graph 0 + 1 ∧
      ∀ t qb r ph, (g2.add_vertex t qb r ph).2 = maxKeyD g2.graph 0 + 1 := by
  obtain ⟨adj, hadj⟩ :=
    Option.isSome_iff_exists.mp ((alookup_isSome_iff g.graph v).mpr hv)
  have hsym : ∀ p ∈ g.graph, ∀ q ∈ p.2,
      ∃ adj2, alookup g.graph q.1 = some adj2 ∧ p.1 ∈ adj2.map Prod.fst := by
    intro p hp q hq
    obtain ⟨hs, hm⟩ := hsymB p hp q hq
    obtain ⟨adj2, ha2⟩ := Option.isSome_iff_exists.mp hs
    rw [ha2] at hm
    exact ⟨adj2, ha2, by simpa using hm⟩
  have hpair : (v, adj) ∈ g.graph := alookup_mem g.graph v adj hadj
  obtain ⟨hty, hph⟩ := htyB (v, adj) hpair
  obtain ⟨gmid, heq, hnone, hothers, hkeys, hinp, hout, hdim, hvin, hsc⟩ :=
    removeOneVertex_spec g v adj hadj hnd hrows hsym hty hph
  have hrun : g.remove_vertex v =
      .ok ({gmid with vindex := maxKeyD gmid.graph 0 + 1} : GraphS) := by
    rw [GraphS.remove_vertex, GraphS.remove_vertices]
    simp only [List.foldlM, heq, exbind_ok, expure]
  refine ⟨_, hrun, hnone, ?_, hothers, hinp, hout, rfl, ?_⟩
  · intro u r hur
    by_cases huv : u = v
    · rw [huv, hnone] at hur
      cases hur
    · rw [hothers u huv] at hur
      obtain ⟨adjU, hlu, hrw⟩ := Option.map_eq_some'.mp hur
      rw [← hrw]
      exact not_mem_keys_arem adjU v (hrows (u, adjU) (alookup_mem g.graph u adjU hlu))
  · intro t qb r ph
    rw [add_vertex_returns_vindex]

/-- Witness for C10: removing the input vertex `0` of `gInOut`. -/
theorem C10_remove_vertex_spec_witness :
    ∃ g2, gInOut.remove_vertex 0 = .ok g2 ∧
      alookup g2.graph 0 = none ∧
      (∀ u r, alookup g2.graph u = some r → 0 ∉ r.map Prod.fst) ∧
      (∀ u, u ≠ 0 → alookup g2.graph u = (alookup gInOut.graph u).map (fun r => arem r 0)) ∧
      g2.inputs = gInOut.inputs.filter (fun u => u ≠ 0) ∧
      g2.outputs = gInOut.outputs.filter (fun u => u ≠ 0) ∧
      g2.vindex = maxKeyD g2.graph 0 + 1 ∧
      ∀ t qb r ph, (g2.add_vertex t qb r ph).2 = maxKeyD g2.graph 0 + 1 :=
  C10_remove_vertex_spec gInOut 0 (by decide) (by decide) (by decide) (by decide)
    (by decide)

/-- Counterexample to C10 as stated: start from six vertices `0..5`, remove
`1,2,3,4` (leaving vertices `{0, 5}`), then remove the maximal vertex `5`.
The next `add_vertex` returns handle `1` — `max(remaining)+1` — not the
removed maximal vertex's handle `5`, so "the handle of a removed maximal
vertex is reused by the next add_vertex" fails. -/
theorem C10_handle_not_reused_counterexample :
    (do
      let g2 ← (((GraphS.init 3).add_vertices 6).1).remove_vertices [1, 2, 3, 4]
      let g3 ← g2.remove_vertex 5
      Except.ok (g2.graph.map Prod.fst,
        (g3.add_vertex VertexType.BOUNDARY (-1) (-1) none).2))
      = .ok ([0, 5], 1) ∧ (1 : Nat) ≠ 5 := by
  refine ⟨rfl, by decide⟩

end DiZX
